import Mathlib

/-!
# Task Buddy / Pomodoro front end (`src/frontend/app.js`)

A shallow embedding of the client script: the task list pipeline of
`renderTasks` (search filter, sort), `computeDaysLeft` and the "Due soon"
badge, the Pomodoro timer (`startPom` / `stopPom` handlers, `startCountdown`,
`stopCountdown`, `updatePomDisplay`), `drawPriorityChart`, and the add-task
form handler.

Conventions of the embedding:

* a JavaScript string is a `List Char` (`JSString`);
* a property that may be absent from a task object is an `Option`;
* observable side effects (requests, alerts, notifications, refreshes) are
  appended to an explicit log carried by the state;
* an `async` handler of the timer runs up to its `await` in one step and
  resumes in a later step, when the reply to its request arrives; the
  add-task handler is followed to its end, its request being answered;
* built-ins whose result depends on the host (`toLowerCase`, `localeCompare`,
  `Date` parsing, the notification permission, the canvas width, the text of
  a backend response) are parameters.
-/

namespace TaskBuddy

/-! ## Strings -/

/-- A JavaScript string, as its sequence of characters. -/
abbrev JSString := List Char

/-- The code points `String.prototype.trim` strips: ECMAScript WhiteSpace and
LineTerminator. -/
def isJSWhiteSpace (c : Char) : Bool :=
  decide (c.toNat ∈ [9, 10, 11, 12, 13, 32, 160, 5760, 8232, 8233, 8239, 8287, 12288, 65279])
    || (decide (8192 ≤ c.toNat) && decide (c.toNat ≤ 8202))

/-- `String.prototype.trim`: strip white space from both ends. -/
def trim (s : JSString) : JSString :=
  (s.dropWhile isJSWhiteSpace).rdropWhile isJSWhiteSpace

/-- An example host for `toLowerCase`: on a string of ASCII characters
`String.prototype.toLowerCase` maps `A`..`Z` to `a`..`z` and leaves the other
characters as they are. Used only at ASCII strings. -/
def toLowerCaseAscii (s : JSString) : JSString :=
  s.map Char.toLower

/-- `String.prototype.includes`: `q` occurs in `s` as a contiguous run. -/
def includes (s q : JSString) : Bool :=
  s.tails.any (fun t => q.isPrefixOf t)

/-- The JavaScript idiom `x || ""` on a string property that may be absent. -/
def orEmpty (x : Option JSString) : JSString :=
  match x with
  | some s => s
  | none => []

/-! ## Tasks -/

/-- A task object of the `/tasks` response. -/
structure Task where
  id : JSString
  title : Option JSString
  due : Option JSString
  tags : Option JSString
  priority : Option JSString
  completed : Bool
deriving DecidableEq

/-! ## `renderTasks`: the search filter (lines 42-44) -/

/-- The predicate of `tasks.filter(...)` in `renderTasks`, for the normalised
query `q`; `toLowerCase` is the host's `String.prototype.toLowerCase`. -/
def matchesQuery (toLowerCase : JSString → JSString) (q : JSString) (t : Task) : Bool :=
  includes (toLowerCase (orEmpty t.title)) q || includes (toLowerCase (orEmpty t.tags)) q

/-- Lines 42-44 of `renderTasks`: `q` is the trimmed, lower-cased value of the
search box; the list is filtered only when `q` is non-empty. -/
def renderTasksFilter (toLowerCase : JSString → JSString) (searchInput : JSString)
    (tasks : List Task) : List Task :=
  let q := toLowerCase (trim searchInput)
  if q ≠ [] then tasks.filter (matchesQuery toLowerCase q) else tasks

/-- The specification's notion of a match: the query occurs in the title or in
the tags as a substring, compared case-insensitively, that is after both have
been lower-cased; an absent title or tags counts as the empty string. -/
def SpecMatches (toLowerCase : JSString → JSString) (query : JSString) (t : Task) : Prop :=
  toLowerCase query <:+: toLowerCase (orEmpty t.title) ∨
    toLowerCase query <:+: toLowerCase (orEmpty t.tags)

instance (toLowerCase : JSString → JSString) (query : JSString) (t : Task) :
    Decidable (SpecMatches toLowerCase query t) := by
  unfold SpecMatches
  exact inferInstance

/-- A task list used in the examples. -/
def sampleTasks : List Task :=
  [ { id := "1".toList, title := some "ab".toList, due := some "2025-01-02".toList,
      tags := none, priority := some "High".toList, completed := false },
    { id := "2".toList, title := some "Ba".toList, due := some "".toList,
      tags := some "x y".toList, priority := some "High".toList, completed := true },
    { id := "3".toList, title := some "c".toList, due := none,
      tags := some "".toList, priority := some "Low".toList, completed := false } ]

/-! ## `renderTasks`: sorting (lines 46-48) -/

/-- Insertion of `a` in front of the first element it does not follow. -/
def insertSorted {α : Type} (cmp : α → α → Int) (a : α) : List α → List α
  | [] => [a]
  | b :: l => if cmp a b ≤ 0 then a :: b :: l else b :: insertSorted cmp a l

/-- `Array.prototype.sort(cmp)`: a stable comparison sort. An element moves
behind another only when the comparator returns a positive number for the
pair. -/
def arraySort {α : Type} (cmp : α → α → Int) : List α → List α
  | [] => []
  | a :: l => insertSorted cmp a (arraySort cmp l)

/-- Lines 46-48 of `renderTasks`: the two conditional sorts, `localeCompare`
being the host's collation. -/
def renderTasksSort (localeCompare : JSString → JSString → Int) (sortSelect : JSString)
    (filtered : List Task) : List Task :=
  let byDue :=
    if sortSelect = "due".toList then
      arraySort (fun a b => localeCompare (orEmpty a.due) (orEmpty b.due)) filtered
    else filtered
  if sortSelect = "title".toList then
    arraySort (fun a b => localeCompare (orEmpty a.title) (orEmpty b.title)) byDue
  else byDue

/-- The list `renderTasks` displays: filter, then sort. -/
def renderTasks (toLowerCase : JSString → JSString)
    (localeCompare : JSString → JSString → Int) (searchInput sortSelect : JSString)
    (tasks : List Task) : List Task :=
  renderTasksSort localeCompare sortSelect (renderTasksFilter toLowerCase searchInput tasks)

/-- The shape `YYYY-MM-DD` of the data model's `due` strings. -/
def isDateShape (s : JSString) : Bool :=
  match s with
  | [y1, y2, y3, y4, h1, m1, m2, h2, d1, d2] =>
      y1.isDigit && y2.isDigit && y3.isDigit && y4.isDigit && (h1 == Char.ofNat 45)
        && m1.isDigit && m2.isDigit && (h2 == Char.ofNat 45) && d1.isDigit && d2.isDigit
  | _ => false

/-- The assumption on the host's collation, for a given list: `localeCompare`
orders the `due` values present in the list as the code-point lexicographic
order does. Every host does so on the data model's values, which are empty or
of the shape `YYYY-MM-DD`. -/
def CollatesDue (localeCompare : JSString → JSString → Int) (tasks : List Task) : Prop :=
  ∀ a ∈ tasks, ∀ b ∈ tasks,
    (localeCompare (orEmpty a.due) (orEmpty b.due) ≤ 0 ↔ orEmpty a.due ≤ orEmpty b.due)

/-- A collation that is the code-point lexicographic order on every string. -/
def codePointCompare (a b : JSString) : Int :=
  if a < b then -1 else if a = b then 0 else 1

/-- An example host for `localeCompare` on ASCII letters: letters are ordered
alphabetically whatever their case, as every host's collation orders them.
Used only at the strings `a` and `Z`, where `localeCompare` is negative for
`a` against `Z` and positive for `Z` against `a`. -/
def localeCompareLetters (a b : JSString) : Int :=
  codePointCompare (a.map Char.toLower) (b.map Char.toLower)

/-- Two tasks whose `due` was typed into the edit prompt as free text. -/
def freeTextDueTasks : List Task :=
  [ { id := "1".toList, title := some "t1".toList, due := some "Z".toList,
      tags := none, priority := some "Low".toList, completed := false },
    { id := "2".toList, title := some "t2".toList, due := some "a".toList,
      tags := none, priority := some "Low".toList, completed := false } ]

/-! ## `computeDaysLeft` (lines 101-109) and the "Due soon" badge (line 67) -/

/-- What `computeDaysLeft` returns: the string `N/A`, the string `past`, or a
number. -/
inductive DaysLeft where
  | na
  | past
  | num (d : Int)
deriving DecidableEq

/-- The divisor `1000*60*60*24`. -/
def MS_PER_DAY : Int := 1000 * 60 * 60 * 24

/-- `Math.ceil(x / d)` for integers `x` and `d > 0`. -/
def ceilDiv (x d : Int) : Int := -((-x) / d)

/-- `computeDaysLeft(due)`. `parseDate s` is the time value of `new Date(s)` in
milliseconds (`none` for an invalid date, whose time value is `NaN`), and
`todayMidnight` is the time value of
`new Date(now.getFullYear(), now.getMonth(), now.getDate())`. With `NaN` the
comparison `diff >= 0` is false. -/
def computeDaysLeft (parseDate : JSString → Option Int) (todayMidnight : Int)
    (due : Option JSString) : DaysLeft :=
  match due with
  | none => DaysLeft.na
  | some s =>
    if s = [] then DaysLeft.na
    else
      match parseDate (s ++ "T00:00:00".toList) with
      | none => DaysLeft.past
      | some d =>
        let diff := ceilDiv (d - todayMidnight) MS_PER_DAY
        if diff ≥ 0 then DaysLeft.num diff else DaysLeft.past

/-- `Number(days)`: the number itself, `NaN` (`none`) for either string. -/
def toNumber (days : DaysLeft) : Option Int :=
  match days with
  | DaysLeft.num d => some d
  | _ => none

/-- The condition of line 67, `days !== "past" && Number(days) <= 3`; a
comparison with `NaN` is false. -/
def dueSoonBadge (days : DaysLeft) : Bool :=
  decide (days ≠ DaysLeft.past) &&
    (match toNumber days with
     | some d => decide (d ≤ 3)
     | none => false)

/-- Days from 1970-01-01 to the civil date `y-m-d` (proleptic Gregorian). -/
def daysFromCivil (y m d : Int) : Int :=
  let y1 := if m ≤ 2 then y - 1 else y
  let era := y1 / 400
  let yoe := y1 - era * 400
  let mp := if m > 2 then m - 3 else m + 9
  let doy := (153 * mp + 2) / 5 + d - 1
  let doe := yoe * 365 + yoe / 4 - yoe / 100 + doy
  era * 146097 + doe - 719468

/-- The value of two decimal digit characters. -/
def twoDigitValue (a b : Char) : Int :=
  ((a.toNat - 48) * 10 + (b.toNat - 48) : Nat)

/-- The day number of the date in a string `YYYY-MM-DDT00:00:00`, `none` when
the string is not of that form. -/
def parseCivilDay (s : JSString) : Option Int :=
  if isDateShape (s.take 10) && decide (s.drop 10 = "T00:00:00".toList) then
    match s with
    | y1 :: y2 :: y3 :: y4 :: _ :: m1 :: m2 :: _ :: d1 :: d2 :: _ =>
      let y := twoDigitValue y1 y2 * 100 + twoDigitValue y3 y4
      let m := twoDigitValue m1 m2
      let d := twoDigitValue d1 d2
      if 1 ≤ m ∧ m ≤ 12 ∧ 1 ≤ d ∧ d ≤ 31 then some (daysFromCivil y m d) else none
    | _ => none
  else none

/-- An example host for `parseDate`: local midnight in a zone without clock
changes, at offset zero. -/
def parseDateFixedZone (s : JSString) : Option Int :=
  (parseCivilDay s).map (fun day => day * MS_PER_DAY)

/-- Local midnight of a day of 2025 in a zone five hours behind UTC that keeps
summer time, four hours behind, from 9 March 02:00 to 2 November 02:00 (the
rules of `America/New_York`): the midnights of 10 March to 2 November fall in
summer time. -/
def localMidnightSummerTime (day : Int) : Int :=
  day * MS_PER_DAY +
    (if daysFromCivil 2025 3 10 ≤ day ∧ day ≤ daysFromCivil 2025 11 2 then 4 else 5) * 3600000

/-- An example host for `parseDate` with clock changes: local midnight in the
zone of `localMidnightSummerTime`. -/
def parseDateSummerTime (s : JSString) : Option Int :=
  (parseCivilDay s).map localMidnightSummerTime

/-! ## Side effects -/

/-- An observable side effect of a handler. -/
inductive Effect where
  | fetch (method path body : JSString)
  | alert (message : JSString)
  | notification (title body : JSString)
  | requestPermission
  | loadTasks
deriving DecidableEq

/-- Whether an effect is a request to the backend stop endpoint. -/
def isStopRequest (e : Effect) : Bool :=
  match e with
  | Effect.fetch _ path _ => decide (path = "/pomodoro/stop".toList)
  | _ => false

/-- Whether an effect is a notification shown, `new Notification(...)`. -/
def isNotification (e : Effect) : Bool :=
  match e with
  | Effect.notification _ _ => true
  | _ => false

/-- Whether an effect is a call of `Notification.requestPermission()`. -/
def isPermissionRequest (e : Effect) : Bool :=
  match e with
  | Effect.requestPermission => true
  | _ => false

/-- Whether an effect is a request to the backend at all. -/
def isRequest (e : Effect) : Bool :=
  match e with
  | Effect.fetch _ _ _ => true
  | _ => false

/-! ## `encodeURIComponent` -/

/-- The characters `encodeURIComponent` leaves as they are. -/
def isUriUnreserved (c : Char) : Bool :=
  c.isAlphanum || decide (c ∈ "-_.!~*'()".toList)

/-- An upper-case hexadecimal digit. -/
def hexDigit (n : Nat) : Char :=
  if n < 10 then Char.ofNat (48 + n) else Char.ofNat (55 + n)

/-- The UTF-8 bytes of a character. -/
def utf8Bytes (c : Char) : List Nat :=
  let v := c.toNat
  if v ≤ 127 then [v]
  else if v ≤ 2047 then [192 + v / 64, 128 + v % 64]
  else if v ≤ 65535 then [224 + v / 4096, 128 + v / 64 % 64, 128 + v % 64]
  else [240 + v / 262144, 128 + v / 4096 % 64, 128 + v / 64 % 64, 128 + v % 64]

/-- The escape `%XX` of a byte. -/
def percentEncode (b : Nat) : JSString :=
  [Char.ofNat 37, hexDigit (b / 16), hexDigit (b % 16)]

/-- `encodeURIComponent`. -/
def encodeURIComponent (s : JSString) : JSString :=
  s.flatMap (fun c => if isUriUnreserved c then [c] else (utf8Bytes c).flatMap percentEncode)

/-! ## Pomodoro timer (lines 117-162) -/

/-- What `notify` finds in the host: no `Notification` in `window`, or the
value of `Notification.permission` (`undecided` for the value `default`). -/
inductive Permission where
  | unsupported
  | granted
  | denied
  | undecided
deriving DecidableEq

/-- The module-level variables of the timer, the parts of the page it writes,
the host's live interval timers and notification permission, the handlers
suspended at an `await` (`pendingStart`, `pendingStop`) or waiting for the
answer to a permission request, and the log of side effects. -/
structure PomState where
  pomInterval : Option Nat
  pomRemaining : Int
  currentSessionId : Option JSString
  startDisabled : Bool
  stopDisabled : Bool
  pomTimerText : JSString
  liveIntervals : List Nat
  nextHandle : Nat
  pendingStart : Nat
  pendingStop : Nat
  permission : Permission
  pendingPermission : List (JSString × JSString)
  log : List Effect
deriving DecidableEq

/-- The state after the script has loaded (lines 117-119). The `disabled`
attribute of the stop button and the text of the timer come from the page,
the notification permission from the host. -/
def initialState (stopDisabled : Bool) (pomTimerText : JSString) (permission : Permission) :
    PomState :=
  { pomInterval := none, pomRemaining := 25 * 60, currentSessionId := none,
    startDisabled := false, stopDisabled := stopDisabled, pomTimerText := pomTimerText,
    liveIntervals := [], nextHandle := 1, pendingStart := 0, pendingStop := 0,
    permission := permission, pendingPermission := [], log := [] }

/-- `Number.prototype.toString` on an integer. -/
def numberToString (n : Int) : JSString :=
  if n < 0 then Char.ofNat 45 :: Nat.toDigits 10 n.natAbs else Nat.toDigits 10 n.toNat

/-- The call `padStart(2, '0')`. -/
def padStart2 (s : JSString) : JSString :=
  List.replicate (2 - s.length) (Char.ofNat 48) ++ s

/-- The text `updatePomDisplay` writes for a value of `pomRemaining` (line
161): `Math.floor(r/60)` and `Math.floor(r%60)`, the remainder taking the sign
of `r`. -/
def pomDisplayText (r : Int) : JSString :=
  padStart2 (numberToString (r / 60)) ++ Char.ofNat 58 :: padStart2 (numberToString (r.tmod 60))

/-- `updatePomDisplay()`. -/
def updatePomDisplay (s : PomState) : PomState :=
  { s with pomTimerText := pomDisplayText s.pomRemaining }

/-- `stopCountdown()` (line 160); a handle is truthy when it is not `0`. -/
def stopCountdown (s : PomState) : PomState :=
  let live :=
    match s.pomInterval with
    | some h => if h ≠ 0 then s.liveIntervals.filter (fun x => x != h) else s.liveIntervals
    | none => s.liveIntervals
  { s with liveIntervals := live, pomInterval := none, startDisabled := false,
           stopDisabled := true, pomTimerText := "25:00".toList }

/-- `notify(title, body)` (line 162): nothing without `Notification` or with
the permission denied, a notification with the permission granted, and
otherwise a permission request whose answer decides later. -/
def notify (title body : JSString) (s : PomState) : PomState :=
  match s.permission with
  | Permission.unsupported => s
  | Permission.granted => { s with log := s.log ++ [Effect.notification title body] }
  | Permission.denied => s
  | Permission.undecided =>
    { s with log := s.log ++ [Effect.requestPermission],
             pendingPermission := s.pendingPermission ++ [(title, body)] }

/-- The callback of `requestPermission().then(...)` in `notify`, run with the
user's answer `p` for the oldest request. -/
def permissionAnswered (p : Permission) (s : PomState) : PomState :=
  match s.pendingPermission with
  | [] => s
  | (title, body) :: rest =>
    if p = Permission.unsupported then s
    else
      let s1 := { s with pendingPermission := rest, permission := p }
      if p = Permission.granted then
        { s1 with log := s1.log ++ [Effect.notification title body] }
      else s1

/-- The click handler of `stopPom` up to its `await` (lines 142-146): without
a session it returns at once; otherwise it sends the stop request and is
suspended. A session id is falsy when it is `null` or the empty string. -/
def stopPomHandler (s : PomState) : PomState :=
  match s.currentSessionId with
  | none => s
  | some sid =>
    if sid = [] then s
    else
      { s with pendingStop := s.pendingStop + 1,
               log := s.log ++
                 [Effect.fetch "POST".toList "/pomodoro/stop".toList
                   ("sessionId=".toList ++ encodeURIComponent sid)] }

/-- The rest of the click handler of `stopPom`, run when the reply to its
request has arrived (lines 147-150). -/
def stopPomResume (s : PomState) : PomState :=
  let s1 := stopCountdown { s with currentSessionId := none }
  let s2 := notify "Pomodoro finished".toList "Well done — session logged!".toList s1
  { s2 with log := s2.log ++ [Effect.loadTasks] }

/-- The call `el("stopPom").click()`: a disabled button dispatches no click. -/
def stopPomClick (s : PomState) : PomState :=
  if s.stopDisabled then s else stopPomHandler s

/-- The callback given to `setInterval` in `startCountdown` (lines 155-158). -/
def intervalCallback (s : PomState) : PomState :=
  if s.pomRemaining ≤ 0 then stopPomClick s
  else updatePomDisplay { s with pomRemaining := s.pomRemaining - 1 }

/-- `startCountdown()` (lines 153-159): `setInterval` returns a fresh non-zero
handle. -/
def startCountdown (s : PomState) : PomState :=
  let s1 := updatePomDisplay s
  { s1 with pomInterval := some s1.nextHandle,
            liveIntervals := s1.liveIntervals ++ [s1.nextHandle],
            nextHandle := s1.nextHandle + 1 }

/-- The click handler of `startPom` up to its `await` (lines 130-135):
`taskId` is the value of the task selector. -/
def startPomHandler (taskId : JSString) (s : PomState) : PomState :=
  if taskId = [] then { s with log := s.log ++ [Effect.alert "Select a task".toList] }
  else
    { s with pendingStart := s.pendingStart + 1,
             log := s.log ++
               [Effect.fetch "POST".toList "/pomodoro/start".toList
                 ("taskId=".toList ++ encodeURIComponent taskId)] }

/-- The rest of the click handler of `startPom`, run when the reply has
arrived (lines 136-139): `resp` is the text of the backend's response. -/
def startPomResume (resp : JSString) (s : PomState) : PomState :=
  startCountdown { s with currentSessionId := some resp, pomRemaining := 25 * 60,
                          startDisabled := true, stopDisabled := false }

/-- An event of the timer: a user click on either button, the reply to a
request of a suspended handler or its failure, one firing of a live interval
timer, or the user's answer to a permission request. -/
inductive Event where
  | start (taskId : JSString)
  | startReply (resp : JSString)
  | startError
  | stop
  | stopReply
  | stopError
  | tick
  | permissionAnswer (p : Permission)
deriving DecidableEq

/-- One event. A click on a disabled button runs no handler; a reply resumes
a suspended handler, a failed request abandons it; a tick fires only while
some interval timer is live. -/
def step (s : PomState) (e : Event) : PomState :=
  match e with
  | Event.start taskId => if s.startDisabled then s else startPomHandler taskId s
  | Event.startReply resp =>
    if s.pendingStart = 0 then s
    else startPomResume resp { s with pendingStart := s.pendingStart - 1 }
  | Event.startError => { s with pendingStart := s.pendingStart - 1 }
  | Event.stop => stopPomClick s
  | Event.stopReply =>
    if s.pendingStop = 0 then s
    else stopPomResume { s with pendingStop := s.pendingStop - 1 }
  | Event.stopError => { s with pendingStop := s.pendingStop - 1 }
  | Event.tick => if s.liveIntervals = [] then s else intervalCallback s
  | Event.permissionAnswer p => permissionAnswered p s

/-- A sequence of events, from left to right. -/
def run (s : PomState) (es : List Event) : PomState :=
  es.foldl step s

/-- The timer is running: a session is active and an interval timer is
live. -/
def Running (s : PomState) : Prop :=
  (∃ sid, s.currentSessionId = some sid ∧ sid ≠ []) ∧ s.pomInterval ≠ none ∧ s.liveIntervals ≠ []

/-- The timer is idle: no session, and the repeating tick is cancelled. -/
def Idle (s : PomState) : Prop :=
  s.currentSessionId = none ∧ s.pomInterval = none ∧ s.liveIntervals = []

/-- The state once a session has been started from the initial state: the
start button clicked with task `taskId` selected, and the backend's reply
`resp` received. -/
def startedSession (stopDisabled : Bool) (pomTimerText : JSString) (permission : Permission)
    (taskId resp : JSString) : PomState :=
  run (initialState stopDisabled pomTimerText permission)
    [Event.start taskId, Event.startReply resp]

/-- Two decimal digits of a number below 100, the format the specification
gives for each half of `MM:SS`. -/
def twoDigits (n : Nat) : JSString :=
  [Char.ofNat (48 + n / 10), Char.ofNat (48 + n % 10)]

/-! ## `drawPriorityChart` (lines 165-180) -/

/-- The `counts` object: its own properties, in insertion order. -/
abbrev Counts := List (JSString × Nat)

/-- `counts[k]`, `undefined` (`none`) for a key that is not there. -/
def Counts.get (c : Counts) (k : JSString) : Option Nat :=
  match c with
  | [] => none
  | (k1, v) :: rest => if k1 = k then some v else Counts.get rest k

/-- `counts[k] = v`. -/
def Counts.set (c : Counts) (k : JSString) (v : Nat) : Counts :=
  match c with
  | [] => [(k, v)]
  | (k1, v1) :: rest => if k1 = k then (k1, v) :: rest else (k1, v1) :: Counts.set rest k v

/-- The property key a task's `priority` is converted to. -/
def priorityKey (p : Option JSString) : JSString :=
  match p with
  | some s => s
  | none => "undefined".toList

/-- Line 167: `counts[t.priority] = (counts[t.priority]||0) + 1` for each
task. A key other than the three initial ones becomes a property of its own
and leaves the three counts alone. -/
def countPriorities (tasks : List Task) : Counts :=
  tasks.foldl
    (fun c t => Counts.set c (priorityKey t.priority) ((Counts.get c (priorityKey t.priority)).getD 0 + 1))
    [("High".toList, 0), ("Medium".toList, 0), ("Low".toList, 0)]

/-- The three keys of line 170. -/
def chartKeys : List JSString := ["High".toList, "Medium".toList, "Low".toList]

/-- A bar of the chart: the arguments of `fillRect(140, y, w, 28)` and of the
label. -/
structure Bar where
  key : JSString
  count : Nat
  y : Nat
  w : ℚ
  fillStyle : JSString
deriving DecidableEq

/-- Line 171: `Math.max(...keys.map(k => counts[k]), 1)`. -/
def chartMax (c : Counts) : Nat :=
  (chartKeys.map (fun k => (Counts.get c k).getD 0)).foldl max 1

/-- `drawPriorityChart(tasks)` on a canvas of the given width: the bars drawn,
in order. -/
def drawPriorityChart (canvasWidth : Nat) (tasks : List Task) : List Bar :=
  let counts := countPriorities tasks
  let mx := chartMax counts
  chartKeys.enum.map (fun (i, k) =>
    let n := (Counts.get counts k).getD 0
    { key := k, count := n, y := 20 + i * 40,
      w := ((canvasWidth : ℚ) - 140) * ((n : ℚ) / (mx : ℚ)),
      fillStyle :=
        if k = "High".toList then "#e65151".toList
        else if k = "Medium".toList then "#f0ad4e".toList else "#4caf50".toList })

/-! ## The add-task form (lines 7-16) -/

/-- The three inputs of the form and the log of side effects. -/
structure FormState where
  titleValue : JSString
  dueValue : JSString
  tagsValue : JSString
  log : List Effect
deriving DecidableEq

/-- The `submit` handler of `taskForm`. -/
def taskFormSubmit (s : FormState) : FormState :=
  let title := encodeURIComponent (trim s.titleValue)
  let due := encodeURIComponent s.dueValue
  let tags := encodeURIComponent (trim s.tagsValue)
  if title = [] then { s with log := s.log ++ [Effect.alert "Enter a title".toList] }
  else
    { titleValue := [], dueValue := [], tagsValue := [],
      log := s.log ++
        [Effect.fetch "POST".toList "/addTask".toList
          ("title=".toList ++ title ++ "&due=".toList ++ due ++ "&tags=".toList ++ tags),
         Effect.loadTasks] }

/-- A form whose title is blank. -/
def blankForm : FormState :=
  { titleValue := "  ".toList, dueValue := "2025-01-01".toList, tagsValue := [], log := [] }

/-- The form of the specification's scenario: title `Write report`, due
`2025-01-01`, no tags. -/
def reportForm : FormState :=
  { titleValue := "Write report".toList, dueValue := "2025-01-01".toList, tagsValue := [],
    log := [] }

/-- The number of tasks whose priority is exactly `name`. -/
def priorityCount (name : JSString) (tasks : List Task) : Nat :=
  tasks.countP (fun t => decide (t.priority = some name))

/-- The divisor the specification gives: the largest of the three bucket
counts and 1. -/
def specMax (tasks : List Task) : Nat :=
  max (max (max 1 (priorityCount "High".toList tasks)) (priorityCount "Medium".toList tasks))
    (priorityCount "Low".toList tasks)

/-- The bar length the specification gives for a bucket: the width left of
the labels, times the bucket's share of the largest count. -/
def specBarLength (canvasWidth : Nat) (name : JSString) (tasks : List Task) : ℚ :=
  ((canvasWidth : ℚ) - 140) * ((priorityCount name tasks : ℚ) / (specMax tasks : ℚ))

/-! # Theorems -/

/-! ## Strings and the search filter -/

theorem includes_iff_substring (s q : JSString) : includes s q = true ↔ q <:+: s := by
  unfold includes
  rw [List.any_eq_true]
  constructor
  · rintro ⟨t, ht, hp⟩
    rw [List.mem_tails] at ht
    rw [List.isPrefixOf_iff_prefix] at hp
    exact List.infix_iff_prefix_suffix.mpr ⟨t, hp, ht⟩
  · intro h
    obtain ⟨t, hp, ht⟩ := List.infix_iff_prefix_suffix.mp h
    exact ⟨t, (List.mem_tails _ _).mpr ht, List.isPrefixOf_iff_prefix.mpr hp⟩

theorem trim_substring (s : JSString) : trim s <:+: s :=
  List.IsInfix.trans (List.IsPrefix.isInfix ( List.rdropWhile_prefix _ _))
    (List.IsSuffix.isInfix (List.dropWhile_suffix _))

theorem matchesQuery_iff (toLowerCase : JSString → JSString) (q : JSString) (t : Task) :
    matchesQuery toLowerCase q t = true ↔
      q <:+: toLowerCase (orEmpty t.title) ∨ q <:+: toLowerCase (orEmpty t.tags) := by
  simp [matchesQuery, includes_iff_substring]

theorem matchesQuery_eq_decide (toLowerCase : JSString → JSString) (query : JSString)
    (t : Task) :
    matchesQuery toLowerCase (toLowerCase query) t =
      decide (SpecMatches toLowerCase query t) := by
  rw [Bool.eq_iff_iff, matchesQuery_iff, decide_eq_true_iff, SpecMatches]

/-- C2, as stated, fails. With the query ` a` (a space, then `a`) the code
trims the query to `a` and keeps the tasks titled `ab` and `Ba`, although the
query itself occurs in no title and no tags, so that the stated sub-list is
empty. -/
theorem renderTasksFilter_untrimmed_counterexample :
    " a".toList ≠ [] ∧
    (∀ t ∈ sampleTasks, ¬ SpecMatches toLowerCaseAscii " a".toList t) ∧
    sampleTasks.filter (fun t => decide (SpecMatches toLowerCaseAscii " a".toList t)) = [] ∧
    renderTasksFilter toLowerCaseAscii " a".toList sampleTasks = sampleTasks.take 2 := by
  decide

/-- C2, amended. Whatever the host's `toLowerCase`, the list `renderTasks`
displays before sorting is the input unchanged when the trimmed query
lower-cases to the empty string, and otherwise exactly the sub-list, in
original order, of the tasks whose lower-cased title or tags contain the
lower-cased trimmed query. An empty or blank query leaves the list unchanged
(`toLowerCase` mapping the empty string to itself); a task whose title
contains the trimmed query in this sense is always retained; and a trimmed
query that occurs in no title and no tags yields the empty list. -/
theorem renderTasksFilter_spec (toLowerCase : JSString → JSString) (searchInput : JSString)
    (tasks : List Task) :
    (renderTasksFilter toLowerCase searchInput tasks =
      if toLowerCase (trim searchInput) = [] then tasks
      else tasks.filter (fun t => decide (SpecMatches toLowerCase (trim searchInput) t))) ∧
    (renderTasksFilter toLowerCase searchInput tasks).Sublist tasks ∧
    (toLowerCase [] = [] → trim searchInput = [] →
      renderTasksFilter toLowerCase searchInput tasks = tasks) ∧
    (∀ t ∈ tasks, toLowerCase (trim searchInput) <:+: toLowerCase (orEmpty t.title) →
      t ∈ renderTasksFilter toLowerCase searchInput tasks) ∧
    (toLowerCase (trim searchInput) ≠ [] →
      (∀ t ∈ tasks, ¬ SpecMatches toLowerCase (trim searchInput) t) →
      renderTasksFilter toLowerCase searchInput tasks = []) := by
  have hmain : renderTasksFilter toLowerCase searchInput tasks =
      if toLowerCase (trim searchInput) = [] then tasks
      else tasks.filter (fun t => decide (SpecMatches toLowerCase (trim searchInput) t)) := by
    unfold renderTasksFilter
    by_cases hq : toLowerCase (trim searchInput) = []
    · simp [hq]
    · simp only [hq, ne_eq, not_false_eq_true, if_true, if_false]
      congr 1
      funext t
      exact matchesQuery_eq_decide _ _ _
  refine ⟨hmain, ?_, ?_, ?_, ?_⟩
  · rw [hmain]
    split
    · exact List.Sublist.refl _
    · exact List.filter_sublist _
  · intro hnil hq
    rw [hmain, hq, if_pos hnil]
  · intro t ht hmatch
    rw [hmain]
    split
    · exact ht
    · rw [List.mem_filter]
      exact ⟨ht, decide_eq_true (Or.inl hmatch)⟩
  · intro hq hnone
    rw [hmain, if_neg hq, List.filter_eq_nil_iff]
    intro t ht
    simpa using hnone t ht

/-- Witness of C2: the query ` B ` on the sample list keeps exactly the two
tasks whose title contains `b`, `zz` keeps none, and a blank query keeps
all. -/
theorem renderTasksFilter_spec_witness :
    renderTasksFilter toLowerCaseAscii " B ".toList sampleTasks = sampleTasks.take 2 ∧
    renderTasksFilter toLowerCaseAscii "zz".toList sampleTasks = [] ∧
    renderTasksFilter toLowerCaseAscii "  ".toList sampleTasks = sampleTasks ∧
    (renderTasksFilter toLowerCaseAscii " B ".toList sampleTasks).Sublist sampleTasks := by
  refine ⟨by decide, ?_, ?_,
    (renderTasksFilter_spec toLowerCaseAscii " B ".toList sampleTasks).2.1⟩
  · exact (renderTasksFilter_spec toLowerCaseAscii "zz".toList sampleTasks).2.2.2.2
      (by decide) (by decide)
  · exact (renderTasksFilter_spec toLowerCaseAscii "  ".toList sampleTasks).2.2.1
      (by decide) (by decide)

/-! ## Sorting -/

theorem insertSorted_perm {α : Type} (cmp : α → α → Int) (a : α) (l : List α) :
    (insertSorted cmp a l).Perm (a :: l) := by
  induction l with
  | nil => exact List.Perm.refl _
  | cons b l ih =>
    unfold insertSorted
    split
    · exact List.Perm.refl _
    · exact (List.Perm.cons b ih).trans (List.Perm.swap a b l)

theorem arraySort_perm {α : Type} (cmp : α → α → Int) (l : List α) :
    (arraySort cmp l).Perm l := by
  induction l with
  | nil => exact List.Perm.refl _
  | cons a l ih =>
    unfold arraySort
    exact (insertSorted_perm cmp a _).trans (List.Perm.cons a ih)

theorem insertSorted_pairwise {α K : Type} [LinearOrder K] (cmp : α → α → Int) (key : α → K)
    (a : α) (l : List α) (h : ∀ b ∈ l, (cmp a b ≤ 0 ↔ key a ≤ key b))
    (hs : l.Pairwise (fun x y => key x ≤ key y)) :
    (insertSorted cmp a l).Pairwise (fun x y => key x ≤ key y) := by
  induction l with
  | nil => simp [insertSorted]
  | cons b l ih =>
    have hb := h b (List.mem_cons_self b l)
    rw [List.pairwise_cons] at hs
    unfold insertSorted
    split
    next hc =>
      have hab : key a ≤ key b := hb.mp hc
      refine List.Pairwise.cons ?_ (List.Pairwise.cons hs.1 hs.2)
      intro x hx
      rcases List.mem_cons.mp hx with rfl | hx
      · exact hab
      · exact le_trans hab (hs.1 x hx)
    next hc =>
      have hba : key b ≤ key a := le_of_not_le (fun hab => hc (hb.mpr hab))
      refine List.Pairwise.cons ?_
        (ih (fun x hx => h x (List.mem_cons_of_mem b hx)) hs.2)
      intro x hx
      rcases List.mem_cons.mp ((insertSorted_perm cmp a l).mem_iff.mp hx) with rfl | hx
      · exact hba
      · exact hs.1 x hx

theorem arraySort_pairwise {α K : Type} [LinearOrder K] (cmp : α → α → Int) (key : α → K)
    (l : List α) (h : ∀ a ∈ l, ∀ b ∈ l, (cmp a b ≤ 0 ↔ key a ≤ key b)) :
    (arraySort cmp l).Pairwise (fun x y => key x ≤ key y) := by
  induction l with
  | nil => simp [arraySort]
  | cons a l ih =>
    unfold arraySort
    refine insertSorted_pairwise cmp key a _ ?_ ?_
    · intro b hb
      exact h a (List.mem_cons_self a l) b
        (List.mem_cons_of_mem a ((arraySort_perm cmp l).mem_iff.mp hb))
    · exact ih (fun x hx y hy =>
        h x (List.mem_cons_of_mem a hx) y (List.mem_cons_of_mem a hy))

theorem insertSorted_filter {α : Type} (cmp : α → α → Int) (p : α → Bool) (a : α) (l : List α)
    (h : ∀ b ∈ l, ¬ cmp a b ≤ 0 → ¬ (p a = true ∧ p b = true)) :
    (insertSorted cmp a l).filter p = (a :: l).filter p := by
  induction l with
  | nil => simp [insertSorted]
  | cons b l ih =>
    unfold insertSorted
    split
    · rfl
    next hc =>
      have hne := h b (List.mem_cons_self b l) hc
      have ih2 := ih (fun x hx => h x (List.mem_cons_of_mem b hx))
      rw [List.filter_cons, ih2]
      cases hpa : p a <;> cases hpb : p b <;> simp_all [List.filter_cons]

theorem arraySort_filter {α : Type} (cmp : α → α → Int) (p : α → Bool) (l : List α)
    (h : ∀ a ∈ l, ∀ b ∈ l, ¬ cmp a b ≤ 0 → ¬ (p a = true ∧ p b = true)) :
    (arraySort cmp l).filter p = l.filter p := by
  induction l with
  | nil => simp [arraySort]
  | cons a l ih =>
    unfold arraySort
    rw [insertSorted_filter cmp p a _ ?_]
    · rw [List.filter_cons, List.filter_cons,
        ih (fun x hx y hy => h x (List.mem_cons_of_mem a hx) y (List.mem_cons_of_mem a hy))]
    · intro b hb
      exact h a (List.mem_cons_self a l) b
        (List.mem_cons_of_mem a ((arraySort_perm cmp l).mem_iff.mp hb))

theorem codePointCompare_le (a b : JSString) : codePointCompare a b ≤ 0 ↔ a ≤ b := by
  unfold codePointCompare
  split
  next h => simp [le_of_lt h]
  next h =>
    split
    next h2 => simp [h2]
    next h2 =>
      simp only [show ¬ ((1 : Int) ≤ 0) by decide, false_iff]
      intro hle
      exact h (lt_of_le_of_ne hle h2)

theorem collatesDue_codePointCompare (tasks : List Task) :
    CollatesDue codePointCompare tasks :=
  fun _ _ _ _ => codePointCompare_le _ _

/-- C3, as stated, fails. The sort orders by the host's `localeCompare`, not
by code points: for the `due` values `Z` and `a` it puts `a` first, and the
result is not in non-decreasing lexicographic order. -/
theorem renderTasksSort_due_counterexample :
    (renderTasksSort localeCompareLetters "due".toList freeTextDueTasks).map (fun t => t.due) =
      [some "a".toList, some "Z".toList] ∧
    ¬ ("a".toList ≤ "Z".toList) ∧
    ¬ (renderTasksSort localeCompareLetters "due".toList freeTextDueTasks).Pairwise
        (fun a b => orEmpty a.due ≤ orEmpty b.due) := by
  decide

/-- C3, amended. For every task list, sorting with mode `due` yields a
permutation of the input; when the host's `localeCompare` orders the `due`
values of the list as the lexicographic order does, the `due` values of the
result (an absent one read as the empty string) are in non-decreasing
lexicographic order, every empty one before every non-empty one, and tasks
with equal `due` keep their relative input order. -/
theorem renderTasksSort_due (localeCompare : JSString → JSString → Int) (tasks : List Task) :
    (renderTasksSort localeCompare "due".toList tasks).Perm tasks ∧
    (CollatesDue localeCompare tasks →
      (renderTasksSort localeCompare "due".toList tasks).Pairwise
        (fun a b => orEmpty a.due ≤ orEmpty b.due) ∧
      (renderTasksSort localeCompare "due".toList tasks).Pairwise
        (fun a b => orEmpty b.due = [] → orEmpty a.due = []) ∧
      (∀ k : JSString,
        (renderTasksSort localeCompare "due".toList tasks).filter
            (fun t => decide (orEmpty t.due = k)) =
          tasks.filter (fun t => decide (orEmpty t.due = k)))) := by
  have hout : renderTasksSort localeCompare "due".toList tasks =
      arraySort (fun a b => localeCompare (orEmpty a.due) (orEmpty b.due)) tasks := by
    simp [renderTasksSort, show ("due".toList = "title".toList) = False by decide]
  rw [hout]
  refine ⟨arraySort_perm _ _, ?_⟩
  intro hlc
  have hsorted := arraySort_pairwise
    (fun (a b : Task) => localeCompare (orEmpty a.due) (orEmpty b.due))
    (fun (t : Task) => orEmpty t.due) tasks hlc
  refine ⟨hsorted, ?_, ?_⟩
  · exact hsorted.imp (fun {a b} hab hb => le_antisymm (hb ▸ hab) List.nil_le)
  · intro k
    apply arraySort_filter
    intro a ha b hb hc hp
    simp only [decide_eq_true_eq] at hp
    exact hc ((hlc a ha b hb).mpr (le_of_eq (hp.1.trans hp.2.symm)))

/-- Witness of C3: the sample list, under the code-point collation. -/
theorem renderTasksSort_due_witness :
    CollatesDue codePointCompare sampleTasks ∧
    (renderTasksSort codePointCompare "due".toList sampleTasks).Pairwise
        (fun a b => orEmpty a.due ≤ orEmpty b.due) ∧
    (renderTasksSort codePointCompare "due".toList sampleTasks).map (fun t => t.id) =
      ["2".toList, "3".toList, "1".toList] :=
  ⟨collatesDue_codePointCompare sampleTasks,
   ((renderTasksSort_due codePointCompare sampleTasks).2
      (collatesDue_codePointCompare sampleTasks)).1,
   by decide⟩

/-! ## Days left and the "Due soon" badge -/

theorem ceilDiv_mul_MS_PER_DAY (k : Int) : ceilDiv (k * MS_PER_DAY) MS_PER_DAY = k := by
  have hpos : MS_PER_DAY ≠ 0 := by decide
  unfold ceilDiv
  rw [← Int.neg_mul, Int.mul_ediv_cancel _ hpos, Int.neg_neg]

theorem computeDaysLeft_num_nonneg (parseDate : JSString → Option Int) (todayMidnight : Int)
    (due : Option JSString) (d : Int)
    (h : computeDaysLeft parseDate todayMidnight due = DaysLeft.num d) : 0 ≤ d := by
  unfold computeDaysLeft at h
  split at h
  · cases h
  · split at h
    · cases h
    · split at h
      · cases h
      · simp only at h
        split at h
        next hge =>
          cases h
          exact hge
        · cases h

/-- When the local midnight of `due` lies `k` whole days of 24 hours from
today's, `computeDaysLeft` returns the number `k` for `k ≥ 0` and `past` for
`k < 0`; it returns `N/A` when `due` is absent or empty. -/
theorem computeDaysLeft_whole_days (parseDate : JSString → Option Int) (todayMidnight : Int)
    (due : JSString) (k : Int) :
    computeDaysLeft parseDate todayMidnight none = DaysLeft.na ∧
    computeDaysLeft parseDate todayMidnight (some []) = DaysLeft.na ∧
    (due ≠ [] →
      parseDate (due ++ "T00:00:00".toList) = some (todayMidnight + k * MS_PER_DAY) →
      computeDaysLeft parseDate todayMidnight (some due) =
        if 0 ≤ k then DaysLeft.num k else DaysLeft.past) := by
  refine ⟨rfl, rfl, ?_⟩
  intro hdue hparse
  have hdiff : todayMidnight + k * MS_PER_DAY - todayMidnight = k * MS_PER_DAY := by ring
  simp only [computeDaysLeft, hdue, if_false, hparse, hdiff, ceilDiv_mul_MS_PER_DAY, ge_iff_le]

/-- In a zone without clock changes, with today 2025-01-01, the dates
2025-01-04, 2025-01-01 and 2024-12-31 give `3`, `0` and `past`. -/
theorem computeDaysLeft_fixed_zone_examples :
    computeDaysLeft parseDateFixedZone (daysFromCivil 2025 1 1 * MS_PER_DAY)
        (some "2025-01-04".toList) = DaysLeft.num 3 ∧
    computeDaysLeft parseDateFixedZone (daysFromCivil 2025 1 1 * MS_PER_DAY)
        (some "2025-01-01".toList) = DaysLeft.num 0 ∧
    computeDaysLeft parseDateFixedZone (daysFromCivil 2025 1 1 * MS_PER_DAY)
        (some "2024-12-31".toList) = DaysLeft.past :=
  ⟨(computeDaysLeft_whole_days parseDateFixedZone (daysFromCivil 2025 1 1 * MS_PER_DAY)
      "2025-01-04".toList 3).2.2 (by decide) (by decide),
   (computeDaysLeft_whole_days parseDateFixedZone (daysFromCivil 2025 1 1 * MS_PER_DAY)
      "2025-01-01".toList 0).2.2 (by decide) (by decide),
   ((computeDaysLeft_whole_days parseDateFixedZone (daysFromCivil 2025 1 1 * MS_PER_DAY)
      "2024-12-31".toList (-1)).2.2 (by decide) (by decide)).trans (if_neg (by decide))⟩

/-- C4, the code at the failing inputs. In a zone that keeps summer time, with
today 2025-07-01 the date 2025-12-25, which is 177 days after today, gives the
number 178: the two local midnights are 177 days and one hour apart and
`Math.ceil` rounds the hour up to a day. With today 2025-03-10 the date
2025-03-09, the day before today, gives the number 0 instead of `past`: the
two midnights are 23 hours apart. -/
theorem computeDaysLeft_clock_change :
    daysFromCivil 2025 12 25 - daysFromCivil 2025 7 1 = 177 ∧
    computeDaysLeft parseDateSummerTime (localMidnightSummerTime (daysFromCivil 2025 7 1))
        (some "2025-12-25".toList) = DaysLeft.num 178 ∧
    daysFromCivil 2025 3 9 - daysFromCivil 2025 3 10 = -1 ∧
    computeDaysLeft parseDateSummerTime (localMidnightSummerTime (daysFromCivil 2025 3 10))
        (some "2025-03-09".toList) = DaysLeft.num 0 := by
  decide

/-- C5. For every value `computeDaysLeft` returns, the "Due soon" badge is
added iff the value is a number `d` with `0 ≤ d ≤ 3`; `3` is flagged, `4` is
not, and neither `past` nor `N/A` is. -/
theorem dueSoonBadge_spec (parseDate : JSString → Option Int) (todayMidnight : Int)
    (due : Option JSString) :
    (dueSoonBadge (computeDaysLeft parseDate todayMidnight due) = true ↔
      ∃ d : Int, computeDaysLeft parseDate todayMidnight due = DaysLeft.num d ∧ 0 ≤ d ∧ d ≤ 3) ∧
    dueSoonBadge (DaysLeft.num 3) = true ∧
    dueSoonBadge (DaysLeft.num 4) = false ∧
    dueSoonBadge DaysLeft.past = false ∧
    dueSoonBadge DaysLeft.na = false := by
  refine ⟨?_, by decide, by decide, by decide, by decide⟩
  constructor
  · intro h
    cases hv : computeDaysLeft parseDate todayMidnight due with
    | na => rw [hv] at h; exact absurd h (by decide)
    | past => rw [hv] at h; exact absurd h (by decide)
    | num d =>
      rw [hv] at h
      refine ⟨d, rfl, computeDaysLeft_num_nonneg _ _ _ _ hv, ?_⟩
      simpa [dueSoonBadge, toNumber] using h
  · rintro ⟨d, hv, _, h3⟩
    rw [hv]
    simp [dueSoonBadge, toNumber, h3]

/-! ## Pomodoro timer -/

theorem padStart2_numberToString : ∀ n : Nat, n < 100 →
    padStart2 (numberToString (n : Int)) = twoDigits n := by
  decide

theorem pomDisplayText_eq (r : Int) (h0 : 0 ≤ r) (h1 : r ≤ 1500) :
    pomDisplayText r = twoDigits (r.toNat / 60) ++ Char.ofNat 58 :: twoDigits (r.toNat % 60) := by
  obtain ⟨n, rfl⟩ := Int.eq_ofNat_of_zero_le h0
  have hn : n ≤ 1500 := by omega
  have hdiv : (n : Int) / 60 = ((n / 60 : Nat) : Int) := by omega
  have hmod : (n : Int).tmod 60 = ((n % 60 : Nat) : Int) := by
    rw [Int.tmod_eq_emod (by omega) (by decide)]
    omega
  unfold pomDisplayText
  rw [hdiv, hmod, padStart2_numberToString _ (by omega), padStart2_numberToString _ (by omega)]
  simp

/-- C8. For `0 ≤ pomRemaining ≤ 1500`, `updatePomDisplay` shows `MM:SS` with
`MM = floor(s/60)` and `SS = s mod 60`, each as two decimal digits: five
characters in all, and `25:00` for `s = 1500`, the text `stopCountdown` resets
the display to. -/
theorem updatePomDisplay_format (s : PomState) (h0 : 0 ≤ s.pomRemaining)
    (h1 : s.pomRemaining ≤ 1500) :
    (updatePomDisplay s).pomTimerText =
      twoDigits (s.pomRemaining.toNat / 60) ++ Char.ofNat 58 ::
        twoDigits (s.pomRemaining.toNat % 60) ∧
    (updatePomDisplay s).pomTimerText.length = 5 ∧
    (s.pomRemaining = 1500 →
      (updatePomDisplay s).pomTimerText = "25:00".toList ∧
      (updatePomDisplay s).pomTimerText = (stopCountdown s).pomTimerText) := by
  have htext : (updatePomDisplay s).pomTimerText = pomDisplayText s.pomRemaining := rfl
  rw [htext, pomDisplayText_eq _ h0 h1]
  refine ⟨rfl, rfl, ?_⟩
  intro h
  rw [h]
  have htxt : twoDigits (Int.toNat 1500 / 60) ++ Char.ofNat 58 ::
      twoDigits (Int.toNat 1500 % 60) = "25:00".toList := by decide
  exact ⟨htxt, htxt⟩

/-- Witness of C8: 61 seconds are shown as `01:01`. -/
theorem updatePomDisplay_format_witness :
    (updatePomDisplay
      { initialState true [] Permission.granted with pomRemaining := 61 }).pomTimerText =
      "01:01".toList :=
  (updatePomDisplay_format { initialState true [] Permission.granted with pomRemaining := 61 }
    (by decide) (by decide)).1.trans (by decide)

/-- C6. The stop handler in a state without a session changes nothing: no
request, no notification, no refresh, and the same session id, remaining
seconds, tick handle and displayed time. -/
theorem stopPomHandler_idle (s : PomState) (h : s.currentSessionId = none) :
    stopPomHandler s = s ∧ stopPomClick s = s ∧ step s Event.stop = s ∧
    (stopPomHandler s).log = s.log ∧
    (stopPomHandler s).pomRemaining = s.pomRemaining ∧
    (stopPomHandler s).pomInterval = s.pomInterval ∧
    (stopPomHandler s).pomTimerText = s.pomTimerText := by
  have hs : stopPomHandler s = s := by
    unfold stopPomHandler
    rw [h]
  have hc : stopPomClick s = s := by
    unfold stopPomClick
    split
    · rfl
    · exact hs
  refine ⟨hs, hc, hc, ?_, ?_, ?_, ?_⟩ <;> rw [hs]

/-- Witness of C6: the initial state, whose stop button is enabled. -/
theorem stopPomHandler_idle_witness :
    stopPomHandler (initialState false "25:00".toList Permission.granted) =
      initialState false "25:00".toList Permission.granted :=
  (stopPomHandler_idle (initialState false "25:00".toList Permission.granted) rfl).1

theorem stopPomHandler_pomRemaining (s : PomState) :
    (stopPomHandler s).pomRemaining = s.pomRemaining := by
  unfold stopPomHandler
  split
  · rfl
  · split <;> rfl

theorem stopPomClick_pomRemaining (s : PomState) :
    (stopPomClick s).pomRemaining = s.pomRemaining := by
  unfold stopPomClick
  split
  · rfl
  · exact stopPomHandler_pomRemaining s

theorem notify_pomRemaining (title body : JSString) (s : PomState) :
    (notify title body s).pomRemaining = s.pomRemaining := by
  unfold notify
  split <;> rfl

theorem permissionAnswered_pomRemaining (p : Permission) (s : PomState) :
    (permissionAnswered p s).pomRemaining = s.pomRemaining := by
  unfold permissionAnswered
  split
  · rfl
  · split
    · rfl
    · simp only
      split <;> rfl

theorem stopPomResume_pomRemaining (s : PomState) :
    (stopPomResume s).pomRemaining = s.pomRemaining := by
  show (notify _ _ _).pomRemaining = s.pomRemaining
  rw [notify_pomRemaining]
  rfl

theorem step_bounds (s : PomState) (e : Event)
    (h : 0 ≤ s.pomRemaining ∧ s.pomRemaining ≤ 1500) :
    0 ≤ (step s e).pomRemaining ∧ (step s e).pomRemaining ≤ 1500 := by
  cases e with
  | start taskId =>
    unfold step
    simp only
    split
    · exact h
    · unfold startPomHandler
      split <;> exact h
  | startReply resp =>
    unfold step
    simp only
    split
    · exact h
    · show (0 : Int) ≤ 25 * 60 ∧ (25 * 60 : Int) ≤ 1500
      decide
  | startError => exact h
  | stop =>
    show 0 ≤ (stopPomClick s).pomRemaining ∧ (stopPomClick s).pomRemaining ≤ 1500
    rw [stopPomClick_pomRemaining]
    exact h
  | stopReply =>
    unfold step
    simp only
    split
    · exact h
    · rw [stopPomResume_pomRemaining]
      exact h
  | stopError => exact h
  | tick =>
    unfold step
    simp only
    split
    · exact h
    · unfold intervalCallback
      split
      · rw [stopPomClick_pomRemaining]
        exact h
      · show 0 ≤ s.pomRemaining - 1 ∧ s.pomRemaining - 1 ≤ 1500
        omega
  | permissionAnswer p =>
    show 0 ≤ (permissionAnswered p s).pomRemaining ∧ (permissionAnswered p s).pomRemaining ≤ 1500
    rw [permissionAnswered_pomRemaining]
    exact h

theorem run_bounds (es : List Event) : ∀ s : PomState,
    0 ≤ s.pomRemaining ∧ s.pomRemaining ≤ 1500 →
    0 ≤ (run s es).pomRemaining ∧ (run s es).pomRemaining ≤ 1500 := by
  induction es with
  | nil => intro s h; exact h
  | cons e es ih =>
    intro s h
    exact ih (step s e) (step_bounds s e h)

/-- C7. In every state reachable from the initial state by start, tick and
stop events, and by the replies that resume their handlers,
`0 ≤ pomRemaining ≤ 1500`; a tick that finds `pomRemaining ≤ 0` runs the stop
click instead of decrementing. -/
theorem pomRemaining_bounds (stopDisabled : Bool) (pomTimerText : JSString)
    (permission : Permission) (es : List Event) :
    0 ≤ (run (initialState stopDisabled pomTimerText permission) es).pomRemaining ∧
    (run (initialState stopDisabled pomTimerText permission) es).pomRemaining ≤ 1500 ∧
    (∀ s : PomState, s.pomRemaining ≤ 0 →
      intervalCallback s = stopPomClick s ∧
      (intervalCallback s).pomRemaining = s.pomRemaining) := by
  have hinit : (0 : Int) ≤ 25 * 60 ∧ (25 * 60 : Int) ≤ 1500 := by decide
  have h := run_bounds es (initialState stopDisabled pomTimerText permission) hinit
  refine ⟨h.1, h.2, ?_⟩
  intro s hs
  have hcb : intervalCallback s = stopPomClick s := by
    unfold intervalCallback
    rw [if_pos hs]
  exact ⟨hcb, by rw [hcb, stopPomClick_pomRemaining]⟩

/-- Witness of C7: a session stopped by the user and started again. -/
theorem pomRemaining_bounds_witness :
    (run (initialState true "25:00".toList Permission.granted)
      [Event.start "1".toList, Event.startReply "s1".toList, Event.tick, Event.tick,
       Event.stop, Event.stopReply, Event.start "1".toList, Event.startReply "s2".toList,
       Event.tick]).pomRemaining ≤ 1500 :=
  (pomRemaining_bounds true "25:00".toList Permission.granted
      [Event.start "1".toList, Event.startReply "s1".toList, Event.tick, Event.tick,
       Event.stop, Event.stopReply, Event.start "1".toList, Event.startReply "s2".toList,
       Event.tick]).2.1

theorem step_tick_decrement (s : PomState) (hl : s.liveIntervals ≠ [])
    (hr : 0 < s.pomRemaining) :
    step s Event.tick =
      { s with pomRemaining := s.pomRemaining - 1,
               pomTimerText := pomDisplayText (s.pomRemaining - 1) } := by
  have hr2 : ¬ s.pomRemaining ≤ 0 := by omega
  simp only [step, hl, if_false, intervalCallback, hr2, updatePomDisplay]

theorem run_ticks_decrement (k : Nat) : ∀ s : PomState, s.liveIntervals ≠ [] →
    (k : Int) + 1 ≤ s.pomRemaining →
    run s (List.replicate (k + 1) Event.tick) =
      { s with pomRemaining := s.pomRemaining - ((k : Int) + 1),
               pomTimerText := pomDisplayText (s.pomRemaining - ((k : Int) + 1)) } := by
  induction k with
  | zero =>
    intro s hl hr
    show step s Event.tick = _
    rw [step_tick_decrement s hl (by omega)]
    simp
  | succ k ih =>
    intro s hl hr
    have hstep := step_tick_decrement s hl (by omega)
    show run (step s Event.tick) (List.replicate (k + 1) Event.tick) = _
    have hr2 : (k : Int) + 1 ≤ s.pomRemaining - 1 := by
      push_cast at hr
      omega
    rw [hstep, ih { s with pomRemaining := s.pomRemaining - 1,
                           pomTimerText := pomDisplayText (s.pomRemaining - 1) } hl hr2]
    have harith : s.pomRemaining - 1 - ((k : Int) + 1) = s.pomRemaining - (((k + 1 : Nat) : Int) + 1) := by
      push_cast
      ring
    simp only [harith]

theorem run_append (s : PomState) (es fs : List Event) :
    run s (es ++ fs) = run (run s es) fs := by
  unfold run
  rw [List.foldl_append]

theorem startedSession_eq (stopDisabled : Bool) (pomTimerText : JSString)
    (permission : Permission) (taskId resp : JSString) (hT : taskId ≠ []) :
    startedSession stopDisabled pomTimerText permission taskId resp =
      { pomInterval := some 1, pomRemaining := 1500, currentSessionId := some resp,
        startDisabled := true, stopDisabled := false, pomTimerText := pomDisplayText 1500,
        liveIntervals := [1], nextHandle := 2, pendingStart := 0, pendingStop := 0,
        permission := permission, pendingPermission := [],
        log := [Effect.fetch "POST".toList "/pomodoro/start".toList
                  ("taskId=".toList ++ encodeURIComponent taskId)] } := by
  simp [startedSession, run, step, initialState, startPomHandler, hT, startPomResume,
    startCountdown, updatePomDisplay]

theorem startedSession_ticks_1500 (stopDisabled : Bool) (pomTimerText : JSString)
    (permission : Permission) (taskId resp : JSString) (hT : taskId ≠ []) :
    run (startedSession stopDisabled pomTimerText permission taskId resp)
        (List.replicate 1500 Event.tick) =
      { pomInterval := some 1, pomRemaining := 0, currentSessionId := some resp,
        startDisabled := true, stopDisabled := false, pomTimerText := pomDisplayText 0,
        liveIntervals := [1], nextHandle := 2, pendingStart := 0, pendingStop := 0,
        permission := permission, pendingPermission := [],
        log := [Effect.fetch "POST".toList "/pomodoro/start".toList
                  ("taskId=".toList ++ encodeURIComponent taskId)] } := by
  rw [startedSession_eq _ _ _ _ _ hT]
  rw [run_ticks_decrement 1499 _ (by simp) (by simp)]
  norm_num

theorem startedSession_ticks_1501 (stopDisabled : Bool) (pomTimerText : JSString)
    (permission : Permission) (taskId resp : JSString) (hT : taskId ≠ []) (hR : resp ≠ []) :
    run (startedSession stopDisabled pomTimerText permission taskId resp)
        (List.replicate 1501 Event.tick) =
      { pomInterval := some 1, pomRemaining := 0, currentSessionId := some resp,
        startDisabled := true, stopDisabled := false, pomTimerText := pomDisplayText 0,
        liveIntervals := [1], nextHandle := 2, pendingStart := 0, pendingStop := 1,
        permission := permission, pendingPermission := [],
        log := [Effect.fetch "POST".toList "/pomodoro/start".toList
                  ("taskId=".toList ++ encodeURIComponent taskId),
                Effect.fetch "POST".toList "/pomodoro/stop".toList
                  ("sessionId=".toList ++ encodeURIComponent resp)] } := by
  have hsplit : List.replicate 1501 Event.tick =
      List.replicate 1500 Event.tick ++ [Event.tick] := List.replicate_succ' 1500 Event.tick
  rw [hsplit, run_append, startedSession_ticks_1500 _ _ _ _ _ hT]
  simp [run, step, intervalCallback, stopPomClick, stopPomHandler, hR]

theorem startedSession_ticks_1502 (stopDisabled : Bool) (pomTimerText : JSString)
    (permission : Permission) (taskId resp : JSString) (hT : taskId ≠ []) (hR : resp ≠ []) :
    run (startedSession stopDisabled pomTimerText permission taskId resp)
        (List.replicate 1502 Event.tick) =
      { pomInterval := some 1, pomRemaining := 0, currentSessionId := some resp,
        startDisabled := true, stopDisabled := false, pomTimerText := pomDisplayText 0,
        liveIntervals := [1], nextHandle := 2, pendingStart := 0, pendingStop := 2,
        permission := permission, pendingPermission := [],
        log := [Effect.fetch "POST".toList "/pomodoro/start".toList
                  ("taskId=".toList ++ encodeURIComponent taskId),
                Effect.fetch "POST".toList "/pomodoro/stop".toList
                  ("sessionId=".toList ++ encodeURIComponent resp),
                Effect.fetch "POST".toList "/pomodoro/stop".toList
                  ("sessionId=".toList ++ encodeURIComponent resp)] } := by
  have hsplit : List.replicate 1502 Event.tick =
      List.replicate 1501 Event.tick ++ [Event.tick] := List.replicate_succ' 1501 Event.tick
  rw [hsplit, run_append, startedSession_ticks_1501 _ _ _ _ _ hT hR]
  simp [run, step, intervalCallback, stopPomClick, stopPomHandler, hR]

/-- C1, as stated, fails. After a start with task `1` and session id `s1`,
exactly 1500 ticks leave the timer running with `pomRemaining = 0`: the
session id is still set, the interval timer is still live, and neither a stop
request nor a notification has been issued. -/
theorem pomodoro_1500_ticks_counterexample :
    (run (startedSession true "25:00".toList Permission.granted "1".toList "s1".toList)
        (List.replicate 1500 Event.tick)).currentSessionId = some "s1".toList ∧
    (run (startedSession true "25:00".toList Permission.granted "1".toList "s1".toList)
        (List.replicate 1500 Event.tick)).liveIntervals = [1] ∧
    ¬ Idle (run (startedSession true "25:00".toList Permission.granted "1".toList "s1".toList)
        (List.replicate 1500 Event.tick)) ∧
    (run (startedSession true "25:00".toList Permission.granted "1".toList "s1".toList)
        (List.replicate 1500 Event.tick)).log.countP isStopRequest = 0 ∧
    (run (startedSession true "25:00".toList Permission.granted "1".toList "s1".toList)
        (List.replicate 1500 Event.tick)).log.countP isNotification = 0 := by
  rw [startedSession_ticks_1500 true "25:00".toList Permission.granted "1".toList
    "s1".toList (by decide)]
  refine ⟨rfl, rfl, ?_, by decide, by decide⟩
  intro h
  exact absurd h.1 (by decide)

/-- C1, amended. Starting a session (1500 seconds remaining, a non-empty
session id, running) and firing 1500 ticks leaves the timer running with
nothing remaining and no stop request or notification yet. The next tick, the
1501st, sends one request to the stop endpoint and leaves the session id set
and the repeating tick live until the reply arrives. When the reply arrives
before a further tick, the timer is idle (session id cleared, repeating tick
cancelled) with exactly one request to the stop endpoint and one call of
`notify`: exactly one notification when the permission is granted, none when
it is denied or notifications are unsupported, and one permission request
when it is undecided, followed by one notification once the user grants it. A
further tick before the reply sends a second stop request. -/
theorem pomodoro_full_session (stopDisabled : Bool) (pomTimerText : JSString)
    (permission : Permission) (taskId resp : JSString) (hT : taskId ≠ []) (hR : resp ≠ []) :
    ((startedSession stopDisabled pomTimerText permission taskId resp).pomRemaining = 1500 ∧
      Running (startedSession stopDisabled pomTimerText permission taskId resp)) ∧
    (Running (run (startedSession stopDisabled pomTimerText permission taskId resp)
        (List.replicate 1500 Event.tick)) ∧
      (run (startedSession stopDisabled pomTimerText permission taskId resp)
        (List.replicate 1500 Event.tick)).pomRemaining = 0 ∧
      (run (startedSession stopDisabled pomTimerText permission taskId resp)
        (List.replicate 1500 Event.tick)).log.countP isStopRequest = 0 ∧
      (run (startedSession stopDisabled pomTimerText permission taskId resp)
        (List.replicate 1500 Event.tick)).log.countP isNotification = 0) ∧
    (Running (run (startedSession stopDisabled pomTimerText permission taskId resp)
        (List.replicate 1501 Event.tick)) ∧
      (run (startedSession stopDisabled pomTimerText permission taskId resp)
        (List.replicate 1501 Event.tick)).log.countP isStopRequest = 1 ∧
      (run (startedSession stopDisabled pomTimerText permission taskId resp)
        (List.replicate 1501 Event.tick)).log.countP isNotification = 0) ∧
    (Idle (run (startedSession stopDisabled pomTimerText permission taskId resp)
        (List.replicate 1501 Event.tick ++ [Event.stopReply])) ∧
      (run (startedSession stopDisabled pomTimerText permission taskId resp)
        (List.replicate 1501 Event.tick ++ [Event.stopReply])).log.countP isStopRequest = 1 ∧
      (run (startedSession stopDisabled pomTimerText permission taskId resp)
        (List.replicate 1501 Event.tick ++ [Event.stopReply])).log.countP isNotification =
          (if permission = Permission.granted then 1 else 0) ∧
      (run (startedSession stopDisabled pomTimerText permission taskId resp)
        (List.replicate 1501 Event.tick ++ [Event.stopReply])).log.countP isPermissionRequest =
          (if permission = Permission.undecided then 1 else 0)) ∧
    (permission = Permission.undecided →
      (run (startedSession stopDisabled pomTimerText permission taskId resp)
        (List.replicate 1501 Event.tick ++
          [Event.stopReply, Event.permissionAnswer Permission.granted])).log.countP
            isNotification = 1) ∧
    (run (startedSession stopDisabled pomTimerText permission taskId resp)
        (List.replicate 1502 Event.tick)).log.countP isStopRequest = 2 := by
  rw [run_append, run_append, startedSession_ticks_1500 _ _ _ _ _ hT,
    startedSession_ticks_1501 _ _ _ _ _ hT hR, startedSession_ticks_1502 _ _ _ _ _ hT hR,
    startedSession_eq _ _ _ _ _ hT]
  refine ⟨⟨rfl, ?_⟩, ⟨?_, rfl, ?_, ?_⟩, ⟨?_, ?_, ?_⟩, ?_, ?_, ?_⟩
  · exact ⟨⟨resp, rfl, hR⟩, by simp, by simp⟩
  · exact ⟨⟨resp, rfl, hR⟩, by simp, by simp⟩
  · simp [List.countP_cons, isStopRequest]
  · simp [List.countP_cons, isNotification]
  · exact ⟨⟨resp, rfl, hR⟩, by simp, by simp⟩
  · simp [List.countP_cons, isStopRequest]
  · simp [List.countP_cons, isNotification]
  · cases permission <;>
      simp [run, step, stopPomResume, stopCountdown, notify, Idle, List.countP_cons,
        List.countP_append, isStopRequest, isNotification, isPermissionRequest]
  · intro hp
    subst hp
    simp [run, step, stopPomResume, stopCountdown, notify, permissionAnswered,
      List.countP_cons, List.countP_append, isNotification]
  · simp [List.countP_cons, isStopRequest]

/-- Witness of C1: task `1`, session id `s1`, notifications permitted. -/
theorem pomodoro_full_session_witness :
    Idle (run (startedSession true "25:00".toList Permission.granted "1".toList "s1".toList)
        (List.replicate 1501 Event.tick ++ [Event.stopReply])) ∧
    (run (startedSession true "25:00".toList Permission.granted "1".toList "s1".toList)
        (List.replicate 1501 Event.tick ++ [Event.stopReply])).log.countP isNotification = 1 :=
  ⟨(pomodoro_full_session true "25:00".toList Permission.granted "1".toList "s1".toList
      (by decide) (by decide)).2.2.2.1.1,
   (pomodoro_full_session true "25:00".toList Permission.granted "1".toList "s1".toList
      (by decide) (by decide)).2.2.2.1.2.2.1⟩

/-! ## Priority chart -/

theorem Counts.get_set_self (c : Counts) (k : JSString) (v : Nat) :
    Counts.get (Counts.set c k v) k = some v := by
  induction c with
  | nil => simp [Counts.set, Counts.get]
  | cons kv rest ih =>
    obtain ⟨k1, v1⟩ := kv
    unfold Counts.set
    split
    next h => simp [Counts.get, h]
    next h => simp [Counts.get, h, ih]

theorem Counts.get_set_ne (c : Counts) (k k2 : JSString) (v : Nat) (hne : k ≠ k2) :
    Counts.get (Counts.set c k v) k2 = Counts.get c k2 := by
  induction c with
  | nil => simp [Counts.set, Counts.get, hne]
  | cons kv rest ih =>
    obtain ⟨k1, v1⟩ := kv
    unfold Counts.set
    split
    next h =>
      subst h
      simp [Counts.get, hne]
    next h =>
      by_cases h2 : k1 = k2
      · simp [Counts.get, h2]
      · simp [Counts.get, h2, ih]

theorem foldl_counts_get (k : JSString) (tasks : List Task) : ∀ (c : Counts) (n : Nat),
    Counts.get c k = some n →
    Counts.get
      (tasks.foldl
        (fun c t => Counts.set c (priorityKey t.priority)
          ((Counts.get c (priorityKey t.priority)).getD 0 + 1)) c) k =
      some (n + tasks.countP (fun t => decide (priorityKey t.priority = k))) := by
  induction tasks with
  | nil => intro c n h; simpa using h
  | cons t tasks ih =>
    intro c n h
    rw [List.foldl_cons, List.countP_cons]
    by_cases hk : priorityKey t.priority = k
    · rw [ih _ (n + 1) (by rw [hk, Counts.get_set_self, h]; rfl)]
      simp [hk]
      omega
    · rw [ih _ n (by rw [Counts.get_set_ne _ _ _ _ hk]; exact h)]
      simp [hk]

theorem priorityKey_eq_iff (p : Option JSString) (k : JSString) (hk : k ∈ chartKeys) :
    priorityKey p = k ↔ p = some k := by
  cases p with
  | some s => simp [priorityKey]
  | none =>
    have hne : "undefined".toList ≠ k := by
      intro h
      subst h
      exact absurd hk (by decide)
    constructor
    · intro h
      exact absurd h hne
    · intro h
      cases h

theorem priorityCount_eq_countP_map (name : JSString) (tasks : List Task) :
    priorityCount name tasks =
      (tasks.map (fun t => t.priority)).countP (fun p => decide (p = some name)) := by
  unfold priorityCount
  rw [List.countP_map]
  rfl

theorem countPriorities_get (k : JSString) (hk : k ∈ chartKeys) (tasks : List Task) :
    Counts.get (countPriorities tasks) k = some (priorityCount k tasks) := by
  have hinit : Counts.get [("High".toList, 0), ("Medium".toList, 0), ("Low".toList, 0)] k
      = some 0 := by
    simp only [chartKeys, List.mem_cons, List.mem_singleton, List.not_mem_nil, or_false] at hk
    rcases hk with rfl | rfl | rfl <;> decide
  unfold countPriorities priorityCount
  rw [foldl_counts_get k tasks _ 0 hinit, Nat.zero_add]
  congr 2
  funext t
  exact decide_eq_decide.mpr (priorityKey_eq_iff _ _ hk)

theorem chartMax_countPriorities (tasks : List Task) :
    chartMax (countPriorities tasks) = specMax tasks := by
  unfold chartMax specMax chartKeys
  simp only [List.map_cons, List.map_nil, List.foldl_cons, List.foldl_nil]
  rw [countPriorities_get _ (by decide) tasks, countPriorities_get _ (by decide) tasks,
    countPriorities_get _ (by decide) tasks]
  rfl

theorem priorityCount_le_specMax (k : JSString) (hk : k ∈ chartKeys) (tasks : List Task) :
    priorityCount k tasks ≤ specMax tasks := by
  simp only [chartKeys, List.mem_cons, List.mem_singleton, List.not_mem_nil, or_false] at hk
  unfold specMax
  rcases hk with rfl | rfl | rfl <;> omega

theorem specBarLength_bounds (canvasWidth : Nat) (k : JSString) (hk : k ∈ chartKeys)
    (tasks : List Task) :
    min 0 ((canvasWidth : ℚ) - 140) ≤ specBarLength canvasWidth k tasks ∧
    specBarLength canvasWidth k tasks ≤ max 0 ((canvasWidth : ℚ) - 140) := by
  have hm : (1 : ℚ) ≤ (specMax tasks : ℚ) := by
    have : 1 ≤ specMax tasks := by unfold specMax; omega
    exact_mod_cast this
  have hc : (priorityCount k tasks : ℚ) ≤ (specMax tasks : ℚ) := by
    exact_mod_cast priorityCount_le_specMax k hk tasks
  have hc0 : (0 : ℚ) ≤ (priorityCount k tasks : ℚ) := Nat.cast_nonneg _
  have hr0 : (0 : ℚ) ≤ (priorityCount k tasks : ℚ) / (specMax tasks : ℚ) :=
    div_nonneg hc0 (by linarith)
  have hr1 : (priorityCount k tasks : ℚ) / (specMax tasks : ℚ) ≤ 1 :=
    (div_le_one (by linarith)).mpr hc
  unfold specBarLength
  rcases le_total 0 ((canvasWidth : ℚ) - 140) with hF | hF
  · rw [min_eq_left hF, max_eq_right hF]
    constructor
    · exact mul_nonneg hF hr0
    · nlinarith
  · rw [min_eq_right hF, max_eq_left hF]
    constructor
    · nlinarith
    · exact mul_nonpos_of_nonpos_of_nonneg hF hr0

/-- C9. `drawPriorityChart` draws three bars, High, Medium and Low, each with
the count of the tasks whose priority is exactly that name and with length
`(width - 140) * count / max(countHigh, countMedium, countLow, 1)`; the divisor
is at least 1, every bar length lies between 0 and the full length
`width - 140`, and for the priorities High, High, Low the counts are 2, 0, 1
with the High bar at full length and the Low bar at half of it. -/
theorem drawPriorityChart_spec (canvasWidth : Nat) (tasks : List Task) :
    drawPriorityChart canvasWidth tasks =
      [ { key := "High".toList, count := priorityCount "High".toList tasks, y := 20,
          w := specBarLength canvasWidth "High".toList tasks, fillStyle := "#e65151".toList },
        { key := "Medium".toList, count := priorityCount "Medium".toList tasks, y := 60,
          w := specBarLength canvasWidth "Medium".toList tasks,
          fillStyle := "#f0ad4e".toList },
        { key := "Low".toList, count := priorityCount "Low".toList tasks, y := 100,
          w := specBarLength canvasWidth "Low".toList tasks, fillStyle := "#4caf50".toList } ] ∧
    1 ≤ chartMax (countPriorities tasks) ∧
    (∀ b ∈ drawPriorityChart canvasWidth tasks,
      min 0 ((canvasWidth : ℚ) - 140) ≤ b.w ∧ b.w ≤ max 0 ((canvasWidth : ℚ) - 140)) ∧
    (tasks.map (fun t => t.priority) =
        [some "High".toList, some "High".toList, some "Low".toList] →
      (drawPriorityChart canvasWidth tasks).map (fun b => (b.count, b.w)) =
        [(2, (canvasWidth : ℚ) - 140), (0, 0), (1, ((canvasWidth : ℚ) - 140) / 2)]) := by
  have hbars : drawPriorityChart canvasWidth tasks =
      [ { key := "High".toList, count := priorityCount "High".toList tasks, y := 20,
          w := specBarLength canvasWidth "High".toList tasks, fillStyle := "#e65151".toList },
        { key := "Medium".toList, count := priorityCount "Medium".toList tasks, y := 60,
          w := specBarLength canvasWidth "Medium".toList tasks,
          fillStyle := "#f0ad4e".toList },
        { key := "Low".toList, count := priorityCount "Low".toList tasks, y := 100,
          w := specBarLength canvasWidth "Low".toList tasks,
          fillStyle := "#4caf50".toList } ] := by
    simp only [drawPriorityChart, chartMax_countPriorities, chartKeys, List.enum,
      List.enumFrom_cons, List.enumFrom_nil, List.map_cons, List.map_nil]
    rw [countPriorities_get _ (by decide) tasks, countPriorities_get _ (by decide) tasks,
      countPriorities_get _ (by decide) tasks]
    simp [specBarLength]
  refine ⟨hbars, ?_, ?_, ?_⟩
  · rw [chartMax_countPriorities]
    unfold specMax
    omega
  · rw [hbars]
    intro b hb
    simp only [List.mem_cons, List.mem_singleton, List.not_mem_nil, or_false] at hb
    rcases hb with rfl | rfl | rfl
    · exact specBarLength_bounds _ _ (by decide) _
    · exact specBarLength_bounds _ _ (by decide) _
    · exact specBarLength_bounds _ _ (by decide) _
  · intro hp
    rw [hbars]
    have hH : priorityCount "High".toList tasks = 2 := by
      rw [priorityCount_eq_countP_map, hp]
      decide
    have hM : priorityCount "Medium".toList tasks = 0 := by
      rw [priorityCount_eq_countP_map, hp]
      decide
    have hL : priorityCount "Low".toList tasks = 1 := by
      rw [priorityCount_eq_countP_map, hp]
      decide
    simp only [List.map_cons, List.map_nil, specBarLength, specMax, hH, hM, hL]
    norm_num
    ring

/-- Witness of C9: the sample list has the priorities High, High, Low. -/
theorem drawPriorityChart_spec_witness :
    (drawPriorityChart 300 sampleTasks).map (fun b => (b.count, b.w)) =
      [(2, ((300 : Nat) : ℚ) - 140), (0, 0), (1, (((300 : Nat) : ℚ) - 140) / 2)] :=
  (drawPriorityChart_spec 300 sampleTasks).2.2.2 (by decide)

/-! ## Add-task form -/

theorem hexDigit_ne (n : Nat) : percentEncode n ≠ [] := by
  simp [percentEncode]

theorem utf8Bytes_ne_nil (c : Char) : utf8Bytes c ≠ [] := by
  unfold utf8Bytes
  simp only
  split
  · simp
  · split
    · simp
    · split <;> simp

theorem encodeURIComponent_eq_nil (s : JSString) : encodeURIComponent s = [] ↔ s = [] := by
  constructor
  · intro h
    cases s with
    | nil => rfl
    | cons c rest =>
      exfalso
      unfold encodeURIComponent at h
      rw [List.flatMap_cons, List.append_eq_nil] at h
      have hc := h.1
      split at hc
      · cases hc
      · cases hb : utf8Bytes c with
        | nil => exact utf8Bytes_ne_nil c hb
        | cons b bs =>
          rw [hb, List.flatMap_cons, List.append_eq_nil] at hc
          exact hexDigit_ne b hc.1
  · intro h
    rw [h]
    rfl

/-- C10. Submitting the form with a title that is empty after trimming sends
no request, alerts the user, leaves the three fields as they are and triggers
no refresh; with a non-empty trimmed title it sends exactly one `POST` to
`/addTask` whose body carries the title, due and tags fields, clears the
fields, and then triggers exactly one refresh. -/
theorem taskFormSubmit_spec (s : FormState) :
    (trim s.titleValue = [] →
      taskFormSubmit s = { s with log := s.log ++ [Effect.alert "Enter a title".toList] }) ∧
    (trim s.titleValue ≠ [] →
      taskFormSubmit s =
        { titleValue := [], dueValue := [], tagsValue := [],
          log := s.log ++
            [Effect.fetch "POST".toList "/addTask".toList
              ("title=".toList ++ encodeURIComponent (trim s.titleValue) ++ "&due=".toList ++
                encodeURIComponent s.dueValue ++ "&tags=".toList ++
                encodeURIComponent (trim s.tagsValue)),
             Effect.loadTasks] }) := by
  constructor
  · intro h
    have he : encodeURIComponent (trim s.titleValue) = [] :=
      (encodeURIComponent_eq_nil _).mpr h
    simp only [taskFormSubmit, he, if_true]
  · intro h
    have he : encodeURIComponent (trim s.titleValue) ≠ [] :=
      fun hc => h ((encodeURIComponent_eq_nil _).mp hc)
    simp only [taskFormSubmit, he, if_false]

/-- Witness of C10: a blank title, and the title `Write report` with due
`2025-01-01` and no tags. -/
theorem taskFormSubmit_spec_witness :
    taskFormSubmit blankForm =
      { blankForm with log := [Effect.alert "Enter a title".toList] } ∧
    (taskFormSubmit reportForm).log =
      [Effect.fetch "POST".toList "/addTask".toList
         "title=Write%20report&due=2025-01-01&tags=".toList,
       Effect.loadTasks] :=
  ⟨(taskFormSubmit_spec blankForm).1 (by decide),
   (congrArg FormState.log ((taskFormSubmit_spec reportForm).2 (by decide))).trans
     (by decide)⟩

end TaskBuddy
